import Mathlib

/-!
Shallow embedding of the filter_mongo_db_plugin
(src/plugin/filter_mongo_db_plugin/filter_mongo_db_plugin.cpp).

Modelling conventions:
- Account, action and permission names are plain strings.
- Raw binary payloads are lists of naturals (byte lists); the opaque external
  collaborators (fc unpack calls, json round-trips, the abi_serializer) are
  modelled as oracle functions collected in an `Env` record, returning
  `Option`/`Bool` exactly where the source catches a decode failure.
- MongoDB collections are lists of records.  `insert_one` appends a record
  carrying a fresh driver-generated object id (`oid`, threaded as a counter);
  `find_one` by name returns the first record in insertion order; `update_one`
  by `_id` rewrites the record with that oid (oids are unique, so a map is
  equivalent to updating the single matching document).  The store itself is
  modelled as never failing a write: the source only logs write failures and
  continues, so a failed write has no further control-flow effect.
- Each source call of fc::time_point::now() is modelled by a timestamp
  parameter supplied by the caller; no claim depends on clock values.
- The warning threshold comparison at line 166 of the source,
  size > queue_size * 0.75 in double arithmetic, is exact for every uint32
  queue_size (0.75 and 3*t/4 are exactly representable below 2^52), so it is
  embedded as the integer comparison 3 * queue_size < 4 * size.
-/

namespace FilterMongoDB

/-- chain::config::system_account_name, the privileged root account. -/
def systemAccountName : String := "eosio"

/-- filter_mongo_db_plugin_impl::newaccount (source line 95). -/
def newaccountName : String := "newaccount"

/-- filter_mongo_db_plugin_impl::setabi (source line 96). -/
def setabiName : String := "setabi"

/-- filter_mongo_db_plugin_impl::accounts_col (source line 99). -/
def accountsCol : String := "accounts"

/-- filter_mongo_db_plugin_impl::filter_col (source line 98). -/
def filterCol : String := "filter"

/-- chain::permission_level: one authorization entry of an action. -/
structure PermissionLevel where
  actor : String
  permission : String
deriving DecidableEq

/-- chain::action: account, action name, opaque payload bytes, authorizations. -/
structure Action where
  account : String
  name : String
  data : List Nat
  authorization : List PermissionLevel
deriving DecidableEq

/-- chain::newaccount as far as the plugin reads it (only the name field). -/
structure NewAccount where
  name : String
deriving DecidableEq

/-- chain::setabi: target account and raw schema bytes. -/
structure SetAbi where
  account : String
  abi : List Nat
deriving DecidableEq

/-- A structured abi_def after unpacking; kept abstract as its rendered form. -/
structure AbiDef where
  rendering : String
deriving DecidableEq

/-- One document of the accounts collection: name, creation timestamp and the
optional abi field plus update timestamp set by update_account. -/
structure AccountRecord where
  oid : Nat
  name : String
  createdAt : Nat
  abi : Option AbiDef := none
  updatedAt : Option Nat := none
deriving DecidableEq

/-- Oracles for the opaque external collaborators.  Each field corresponds to
one fallible call site of the source; a `none`/`false` result is the branch in
which the source catches an exception at that site.
- unpackNewaccount: act.data_as of chain::newaccount (lines 254, 303)
- unpackSetabi: act.data_as of chain::setabi (lines 265, 313)
- unpackAbiDef: fc::raw::unpack of chain::abi_def (lines 276, 315); in
  update_account the json round-trip of the unpacked abi_def that sits inside
  the same try block is absorbed into this oracle, since its failure is caught
  by the same handler with the identical effect
- newaccountJsonOk: fc::json::to_string + bsoncxx::from_json on the unpacked
  newaccount (lines 305-306)
- abiDefJsonOk: fc::json::to_string on the unpacked abi_def in add_data
  (line 316); parsing the just-produced json is treated as total
- storedAbiParseOk: the json round-trip of a stored abi back to abi_def
  (line 334); on failure the abi_def stays default-constructed
- binaryToVariant: abi_serializer set_abi / get_action_type /
  binary_to_variant plus the json round-trip (lines 341-346), given the abi
  in use, the action name and the payload bytes. -/
structure Env where
  unpackNewaccount : List Nat → Option NewAccount
  unpackSetabi : List Nat → Option SetAbi
  unpackAbiDef : List Nat → Option AbiDef
  newaccountJsonOk : NewAccount → Bool
  abiDefJsonOk : AbiDef → Bool
  storedAbiParseOk : AbiDef → Bool
  binaryToVariant : AbiDef → String → List Nat → Option String

/-! ## Bounded queue with adaptive backpressure (source lines 103-124) -/

/-- Observable outcome of one call of the free function `queue`: the
backpressure sleep performed (milliseconds; `none` when the over-target branch
is not entered) and the queue contents after the call. -/
structure QueueCallResult (α : Type) where
  slept : Option Int
  queueAfter : List α
deriving DecidableEq

/-- The free function `queue` (lines 103-124).  `sleep_time` and
`last_queue_size` are function-local variables of the source, re-initialised
to 100 and 0 on every call.  `sizeAtReread` is the value the two
queue.size() reads at lines 111 and 117 observe after the lock was released;
with no concurrent consumer drain it equals `q.length`. -/
def queueCall {α : Type} (q : List α) (e : α) (target : Nat) (sizeAtReread : Nat) :
    QueueCallResult α :=
  let sleepTime : Int := 100
  let lastQueueSize : Nat := 0
  if q.length > target then
    let s : Int :=
      if lastQueueSize < sizeAtReread then sleepTime + 100
      else
        let s2 := sleepTime - 100
        if s2 < 0 then 100 else s2
    { slept := some s, queueAfter := q ++ [e] }
  else
    { slept := none, queueAfter := q ++ [e] }

/-! ## Producer / consumer queue as a transition system (lines 103-124 and
146-193).  `pending` is transaction_metadata_queue, `batch` is
transaction_metadata_process_queue, `processed` collects the events already
handed to process_accepted_transaction, in processing order. -/

/-- State of the shared queues and the processing history. -/
structure QState (α : Type) where
  pending : List α
  batch : List α
  processed : List α
deriving DecidableEq

/-- Reachability of a queue state, indexed by the list of events produced so
far in production order.  `produce` is the enqueue at line 121; `swap` is the
capture at lines 156-160 (the working batch is empty at that point because the
inner loop at lines 174-178 drains it completely before the next iteration);
`process` is one iteration of the inner drain loop. -/
inductive Reach {α : Type} : QState α → List α → Prop
  | init : Reach ⟨[], [], []⟩ []
  | produce {p b d : List α} {es : List α} (e : α) :
      Reach ⟨p, b, d⟩ es → Reach ⟨p ++ [e], b, d⟩ (es ++ [e])
  | swap {p d : List α} {es : List α} :
      Reach ⟨p, [], d⟩ es → p ≠ [] → Reach ⟨[], p, d⟩ es
  | process {p b d : List α} {es : List α} (e : α) :
      Reach ⟨p, e :: b, d⟩ es → Reach ⟨p, b, d ++ [e]⟩ es

/-! ## Consumer shutdown behaviour (lines 146-193) -/

/-- Log lines the consume loop can emit. -/
inductive LogMsg where
  | queueSizeWarn (n : Nat)
  | draining (n : Nat)
  | gracefulShutdown
deriving DecidableEq

/-- One wake-up of the consume loop body with `done = true`: the captured
batch size decides the log line (lines 166-171: the 75% warning takes the
branch, otherwise, since done holds, the draining line is logged), the whole
batch is processed, and the loop breaks exactly when the captured size was
zero (lines 180-183).  Returns (logs, batch processed, loop breaks). -/
def consumeIter {α : Type} (target : Nat) (q : List α) :
    List LogMsg × List α × Bool :=
  let sz := q.length
  let logs := if 3 * target < 4 * sz then [LogMsg.queueSizeWarn sz]
              else [LogMsg.draining sz]
  (logs, q, sz == 0)

/-- The consume loop run to termination after the shutdown flag is set and no
producer appends any more: at most one non-empty iteration followed by the
empty iteration that breaks, then the graceful-shutdown line (line 185).
Returns (logs emitted in order, events processed in order). -/
def consumeShutdown {α : Type} (target : Nat) (q : List α) :
    List LogMsg × List α :=
  let r1 := consumeIter target q
  if r1.2.2 then (r1.1 ++ [LogMsg.gracefulShutdown], r1.2.1)
  else
    let r2 := consumeIter target ([] : List α)
    (r1.1 ++ r2.1 ++ [LogMsg.gracefulShutdown], r1.2.1 ++ r2.2.1)

/-! ## Store documents and writes -/

/-- The payload value appended under the "data" key of an action document:
the tier-1 newaccount rendering (line 307), the tier-1 setabi rendering with
the decoded abi_def sub-field (lines 319-321), or the generic schema-driven
rendering (line 347). -/
inductive PayloadVal where
  | newaccountDoc (na : NewAccount)
  | setabiDoc (account : String) (abi : AbiDef)
  | generic (s : String)
deriving DecidableEq

/-- A payload field appended to an action document by add_data: either the
structured "data" field or the raw "hex_data" fallback (line 367, which keeps
the original bytes as a hex string). -/
inductive PayloadField where
  | data (v : PayloadVal)
  | hexData (bytes : List Nat)
deriving DecidableEq

/-- One decoded action document as assembled by process_action
(lines 414-449): header fields (lines 417-429) plus the payload fields
appended by add_data. -/
structure ActionDoc where
  actionNum : Nat
  trxId : String
  cfa : Bool
  account : String
  name : String
  authorization : List PermissionLevel
  payloadFields : List PayloadField
deriving DecidableEq

/-- A document value handed to a store write.  The `trans` constructor is the
per-transaction document trans_doc holding the "actions" array (line 460); it
is representable as a write payload so that never writing it is a statement
about the code, not about the model's types. -/
inductive BDoc where
  | account (r : AccountRecord)
  | action (d : ActionDoc)
  | trans (actions : List ActionDoc)
deriving DecidableEq

/-- One store write issued by the plugin: insert_one on a collection,
update_one by _id setting the abi and updatedAt fields (lines 279-283), or an
unordered bulk write of documents (line 472). -/
inductive StoreWrite where
  | insertOne (col : String) (doc : BDoc)
  | updateOne (col : String) (oid : Nat) (abi : AbiDef) (updatedAt : Nat)
  | bulkWrite (col : String) (docs : List BDoc)
deriving DecidableEq

/-- Documents carried by one write (updates carry field values, not whole
documents). -/
def writeDocs : StoreWrite → List BDoc
  | StoreWrite.insertOne _ d => [d]
  | StoreWrite.updateOne _ _ _ _ => []
  | StoreWrite.bulkWrite _ ds => ds

/-- All documents carried by a list of writes. -/
def writtenDocs (ws : List StoreWrite) : List BDoc := ws.flatMap writeDocs

/-- Documents a write persists into the filter collection. -/
def filterBulkDocs : StoreWrite → List BDoc
  | StoreWrite.bulkWrite c ds => if c = filterCol then ds else []
  | _ => []

/-- All documents persisted into the filter collection by a list of writes. -/
def persistedFilterDocs (ws : List StoreWrite) : List BDoc :=
  ws.flatMap filterBulkDocs

/-- Is this write an accounts-collection registry write (account insert or
abi update)? -/
def isAccountWrite : StoreWrite → Bool
  | StoreWrite.insertOne c (BDoc.account _) => c == accountsCol
  | StoreWrite.updateOne c _ _ _ => c == accountsCol
  | _ => false

/-- Is this write a bulk insert into the filter collection? -/
def isBulkFilterWrite : StoreWrite → Bool
  | StoreWrite.bulkWrite c _ => c == filterCol
  | _ => false

/-- Is this document the per-transaction document? -/
def isTransDoc : BDoc → Bool
  | BDoc.trans _ => true
  | _ => false

/-! ## Account registry (lines 197-201, 242-295, 513-533) -/

/-- find_account (lines 197-201): find_one by the name key; modelled as the
first record in insertion order with that name. -/
def find_account (accounts : List AccountRecord) (nm : String) :
    Option AccountRecord :=
  accounts.find? (fun r => r.name == nm)

/-- update_one with an _id filter setting abi and updatedAt (lines 279-283);
oids are unique, so rewriting every record with that oid updates the single
matching document. -/
def setAbiByOid (accounts : List AccountRecord) (oid : Nat) (ad : AbiDef)
    (now : Nat) : List AccountRecord :=
  accounts.map (fun r =>
    if r.oid == oid then { r with abi := some ad, updatedAt := some now } else r)

/-- update_account (lines 242-295).  Returns the accounts collection after
the call, the next fresh oid, and the store writes performed, in order.
Control flow of the source:
- non-system account: immediate return (lines 247-248);
- newaccount: unpack (a failure is caught by the outer handler at line 292
  and skips everything), then an unconditional insert_one (lines 257-260);
- setabi: unpack setabi (failure caught at line 292, skips everything), then
  find the target account, insert it if absent and find it again
  (lines 266-273), then unpack the raw abi bytes; an unpack failure is caught
  at line 286 and only skips the abi update, leaving a just-inserted account
  in place; on success update_one sets abi and updatedAt (lines 276-283). -/
def update_account (env : Env) (accounts : List AccountRecord)
    (nextOid now : Nat) (act : Action) :
    List AccountRecord × Nat × List StoreWrite :=
  if act.account ≠ systemAccountName then (accounts, nextOid, [])
  else if act.name == newaccountName then
    match env.unpackNewaccount act.data with
    | none => (accounts, nextOid, [])
    | some na =>
      let r : AccountRecord := { oid := nextOid, name := na.name, createdAt := now }
      (accounts ++ [r], nextOid + 1,
       [StoreWrite.insertOne accountsCol (BDoc.account r)])
  else if act.name == setabiName then
    match env.unpackSetabi act.data with
    | none => (accounts, nextOid, [])
    | some sa =>
      match find_account accounts sa.account with
      | some r =>
        match env.unpackAbiDef sa.abi with
        | none => (accounts, nextOid, [])
        | some ad =>
          (setAbiByOid accounts r.oid ad now, nextOid,
           [StoreWrite.updateOne accountsCol r.oid ad now])
      | none =>
        let r : AccountRecord := { oid := nextOid, name := sa.account, createdAt := now }
        let accounts2 := accounts ++ [r]
        let w0 := StoreWrite.insertOne accountsCol (BDoc.account r)
        match find_account accounts2 sa.account with
        | none => (accounts2, nextOid + 1, [w0])
        | some r2 =>
          match env.unpackAbiDef sa.abi with
          | none => (accounts2, nextOid + 1, [w0])
          | some ad =>
            (setAbiByOid accounts2 r2.oid ad now, nextOid + 1,
             [w0, StoreWrite.updateOne accountsCol r2.oid ad now])
  else (accounts, nextOid, [])

/-- filter_mongo_db_plugin_impl::init (lines 513-533): if the accounts
collection is empty, seed the system account record. -/
def impl_init (accounts : List AccountRecord) (nextOid now : Nat) :
    List AccountRecord × Nat × List StoreWrite :=
  if accounts.length == 0 then
    let r : AccountRecord := { oid := nextOid, name := systemAccountName, createdAt := now }
    (accounts ++ [r], nextOid + 1,
     [StoreWrite.insertOne accountsCol (BDoc.account r)])
  else (accounts, nextOid, [])

/-! ## Action decoder (lines 297-368) -/

/-- The default-constructed abi_def used when the account has no stored abi
or the stored abi fails to parse (lines 331-338). -/
def defaultAbiDef : AbiDef := { rendering := "" }

/-- The abi actually used by the generic tier for a found account record
(lines 331-338): the stored abi when present and parseable, the
default-constructed abi_def otherwise. -/
def resolvedAbi (env : Env) (r : AccountRecord) : AbiDef :=
  match r.abi with
  | none => defaultAbiDef
  | some a => if env.storedAbiParseOk a then a else defaultAbiDef

/-- The schema-driven generic decode tier followed by the raw-hex fallback
(lines 328-367): look the acting account up; if present, parse its stored abi
(default abi_def on absence or parse failure), then attempt the
abi_serializer decode; any failure, and an absent account, end at the
hex_data append of line 367. -/
def genericTier (env : Env) (accounts : List AccountRecord) (act : Action) :
    List PayloadField :=
  match find_account accounts act.account with
  | none => [PayloadField.hexData act.data]
  | some r =>
    match env.binaryToVariant (resolvedAbi env r) act.name act.data with
    | some v => [PayloadField.data (PayloadVal.generic v)]
    | none => [PayloadField.hexData act.data]

/-- add_data (lines 297-368): the payload fields appended to the action
document, in order.  Control flow of the source:
- system newaccount: unpack (an fc exception propagates to the outer handler
  at line 354 and falls to the hex append); on unpack success a json failure
  is caught at line 309 and control falls through to the generic tier;
- system setabi: unpack setabi (failure falls to hex via the outer handler);
  unpack of the embedded abi bytes or its json rendering fails into the
  handler at line 323 and control falls through to the generic tier; on
  success the tier-1 document with the abi_def sub-field is appended;
- every other action goes straight to the generic tier. -/
def add_data (env : Env) (accounts : List AccountRecord) (act : Action) :
    List PayloadField :=
  if act.account == systemAccountName && act.name == newaccountName then
    match env.unpackNewaccount act.data with
    | none => [PayloadField.hexData act.data]
    | some na =>
      if env.newaccountJsonOk na then [PayloadField.data (PayloadVal.newaccountDoc na)]
      else genericTier env accounts act
  else if act.account == systemAccountName && act.name == setabiName then
    match env.unpackSetabi act.data with
    | none => [PayloadField.hexData act.data]
    | some sa =>
      match env.unpackAbiDef sa.abi with
      | none => genericTier env accounts act
      | some ad =>
        if env.abiDefJsonOk ad then
          [PayloadField.data (PayloadVal.setabiDoc sa.account ad)]
        else genericTier env accounts act
  else genericTier env accounts act

/-! ## Transaction processor (lines 372-480) and configuration
(lines 548-628) -/

/-- The configuration options the processing path reads. -/
structure Config where
  filter_contract : List String
  queue_size : Nat
  start_block_num : Nat
deriving DecidableEq

/-- The mutable plugin state the processing path touches: the accounts
collection (plus the fresh-oid counter of the model) and the
start_block_reached flag. -/
structure PState where
  accounts : List AccountRecord
  nextOid : Nat
  start_block_reached : Bool
deriving DecidableEq

/-- The start-block wiring of plugin_initialize (lines 586-591):
start_block_reached becomes true exactly when the configured start block is
zero.  No other statement of the source ever assigns start_block_reached. -/
def initState (start_block_num : Nat) (accounts : List AccountRecord)
    (nextOid : Nat) : PState :=
  { accounts := accounts, nextOid := nextOid,
    start_block_reached := start_block_num == 0 }

/-- An accepted-transaction event: transaction id, its actions in order, and
the height of the containing block.  The processing code never reads the
height; it is carried so that height-dependent claims can be stated. -/
structure TrxMeta where
  id : String
  actions : List Action
  blockHeight : Nat
deriving DecidableEq

/-- Accumulator of the per-action loop of _process_accepted_transaction:
the live accounts collection, the fresh-oid counter, act_num, the action
array of trans_doc, the documents appended to bulk_filter, the
actions_to_write and filter_to_write flags, and the accounts-collection
writes performed so far. -/
structure ActFold where
  accounts : List AccountRecord
  nextOid : Nat
  actNum : Nat
  actArray : List ActionDoc
  bulkDocs : List ActionDoc
  actionsToWrite : Bool
  filterToWrite : Bool
  writes : List StoreWrite
deriving DecidableEq

/-- The act_doc assembled for one action when start_block_reached holds: the
header fields of lines 417-429 plus the payload fields appended by add_data
at line 437, which runs against the post-update_account accounts
collection. -/
def actionDocOf (env : Env) (trxId : String) (accounts2 : List AccountRecord)
    (actNum : Nat) (act : Action) : ActionDoc :=
  { actionNum := actNum, trxId := trxId, cfa := false,
    account := act.account, name := act.name,
    authorization := act.authorization,
    payloadFields := add_data env accounts2 act }

/-- The process_action lambda (lines 414-453): header fields and payload are
built only when start_block_reached (lines 416-430 and 436-449);
update_account runs unconditionally (line 432); when start_block_reached, the
document joins the action array and, when the acting account is in
filter_contract (the std::find at line 441), the same document joins the bulk
insert and filter_to_write is set; act_num always increments. -/
def process_action (cfg : Config) (env : Env) (reached : Bool) (trxId : String)
    (now : Nat) (st : ActFold) (act : Action) : ActFold :=
  let res := update_account env st.accounts st.nextOid now act
  if reached then
    let doc := actionDocOf env trxId res.1 st.actNum act
    { accounts := res.1, nextOid := res.2.1, actNum := st.actNum + 1,
      actArray := st.actArray ++ [doc],
      bulkDocs := st.bulkDocs ++
        (if cfg.filter_contract.contains act.account then [doc] else []),
      actionsToWrite := true,
      filterToWrite := st.filterToWrite || cfg.filter_contract.contains act.account,
      writes := st.writes ++ res.2.2 }
  else
    { accounts := res.1, nextOid := res.2.1, actNum := st.actNum + 1,
      actArray := st.actArray, bulkDocs := st.bulkDocs,
      actionsToWrite := st.actionsToWrite, filterToWrite := st.filterToWrite,
      writes := st.writes ++ res.2.2 }

/-- The loop accumulator at entry of _process_accepted_transaction. -/
def initFold (st : PState) : ActFold :=
  { accounts := st.accounts, nextOid := st.nextOid, actNum := 0,
    actArray := [], bulkDocs := [], actionsToWrite := false,
    filterToWrite := false, writes := [] }

/-- Everything _process_accepted_transaction leaves behind. -/
structure TrxResult where
  state : PState
  actArray : List ActionDoc
  transDoc : Option BDoc
  writes : List StoreWrite
deriving DecidableEq

/-- The per-action loop of _process_accepted_transaction run over the
transaction's actions in order (lines 455-459). -/
def trxFold (cfg : Config) (env : Env) (st : PState) (now : Nat)
    (t : TrxMeta) : ActFold :=
  t.actions.foldl (process_action cfg env st.start_block_reached t.id now)
    (initFold st)

/-- The bulk insert into the filter collection executed at lines 464-479:
exactly when start_block_reached, actions_to_write and filter_to_write all
hold, one unordered bulk write of the collected filter documents. -/
def trxBulkWrites (cfg : Config) (env : Env) (st : PState) (now : Nat)
    (t : TrxMeta) : List StoreWrite :=
  if st.start_block_reached && (trxFold cfg env st now t).actionsToWrite
      && (trxFold cfg env st now t).filterToWrite then
    [StoreWrite.bulkWrite filterCol
      ((trxFold cfg env st now t).bulkDocs.map BDoc.action)]
  else []

/-- _process_accepted_transaction (lines 386-480): run process_action over
the actions in order (lines 455-459); when the transaction has actions, the
actions array is appended to trans_doc (line 460); finally the bulk insert of
lines 464-479 executes when due. -/
def process_trx (cfg : Config) (env : Env) (st : PState) (now : Nat)
    (t : TrxMeta) : TrxResult :=
  { state := { accounts := (trxFold cfg env st now t).accounts,
               nextOid := (trxFold cfg env st now t).nextOid,
               start_block_reached := st.start_block_reached },
    actArray := (trxFold cfg env st now t).actArray,
    transDoc := if t.actions.isEmpty then none
                else some (BDoc.trans (trxFold cfg env st now t).actArray),
    writes := (trxFold cfg env st now t).writes ++
      trxBulkWrites cfg env st now t }

/-- Processing a sequence of accepted-transaction events in order, collecting
all store writes.  start_block_reached is threaded unchanged through every
event: no statement of the processing path assigns it. -/
def process_events (cfg : Config) (env : Env) (st : PState) (now : Nat) :
    List TrxMeta → PState × List StoreWrite
  | [] => (st, [])
  | t :: ts =>
    let r := process_trx cfg env st now t
    let rest := process_events cfg env r.state now ts
    (rest.1, r.writes ++ rest.2)

/-- Does a decoded action document match the configured filter set? -/
def matchesFilter (cfg : Config) (d : ActionDoc) : Bool :=
  cfg.filter_contract.contains d.account

/-- Is this payload field the structured "data" field? -/
def isDataField : PayloadField → Bool
  | PayloadField.data _ => true
  | PayloadField.hexData _ => false

/-! ## Concrete test fixtures used by the evaluation theorems -/

/-- A concrete oracle environment: byte list [1] unpacks as a newaccount
action creating "alice"; byte list [2] unpacks as a setabi action for "bob"
whose raw abi bytes [9] fail to unpack; every other decode fails. -/
def testEnv : Env :=
  { unpackNewaccount := fun d => if d == [1] then some { name := "alice" } else none
  , unpackSetabi := fun d =>
      if d == [2] then some { account := "bob", abi := [9] } else none
  , unpackAbiDef := fun _ => none
  , newaccountJsonOk := fun _ => true
  , abiDefJsonOk := fun _ => true
  , storedAbiParseOk := fun _ => true
  , binaryToVariant := fun _ _ _ => none }

/-- The seeded system account record. -/
def sysRec : AccountRecord := { oid := 0, name := systemAccountName, createdAt := 0 }

/-- A system newaccount action whose payload unpacks (under testEnv) to the
creation of "alice". -/
def actNewAlice : Action :=
  { account := systemAccountName, name := newaccountName, data := [1], authorization := [] }

/-- A system setabi action for "bob" whose raw abi bytes fail to unpack under
testEnv. -/
def actSetabiBob : Action :=
  { account := systemAccountName, name := setabiName, data := [2], authorization := [] }

/-- An ordinary action of account "alice". -/
def actAlice : Action :=
  { account := "alice", name := "transfer", data := [7], authorization := [] }

/-- An ordinary action of account "bob". -/
def actBob : Action :=
  { account := "bob", name := "transfer", data := [8], authorization := [] }

/-- A configuration filtering on "alice" with start block 0 (output enabled
immediately). -/
def cfgAlice : Config :=
  { filter_contract := ["alice"], queue_size := 256, start_block_num := 0 }

/-- A configuration filtering on "alice" with start block 1. -/
def cfgStart1 : Config :=
  { filter_contract := ["alice"], queue_size := 256, start_block_num := 1 }

/-- An event below the start height of cfgStart1, carrying a registry-mutating
system action and a filter-matching action. -/
def trxLow : TrxMeta := { id := "t1", actions := [actNewAlice, actAlice], blockHeight := 0 }

/-- An event at a height past the start height of cfgStart1, same shape. -/
def trxHigh : TrxMeta := { id := "t2", actions := [actNewAlice, actAlice], blockHeight := 5 }

/-- A transaction with one action of "alice" and one of "bob". -/
def trxAB : TrxMeta := { id := "t8", actions := [actAlice, actBob], blockHeight := 1 }

/-- A transaction whose only action is the system newaccount action. -/
def trxNA : TrxMeta := { id := "t10", actions := [actNewAlice], blockHeight := 3 }

/-! ## Theorems -/

/-- Every run of add_data appends exactly one payload field: a structured
"data" field or the hex fallback carrying the action's raw bytes. -/
theorem lem_add_data_shape (env : Env) (accounts : List AccountRecord)
    (act : Action) :
    (∃ v, add_data env accounts act = [PayloadField.data v]) ∨
    add_data env accounts act = [PayloadField.hexData act.data] := by
  unfold add_data genericTier
  repeat' first
    | (left; exact ⟨_, rfl⟩)
    | (right; rfl)
    | split

/-- C6: for every action passed to the decoder, the resulting action document
contains exactly one of the structured payload field ("data") or the hex
fallback field ("hex_data"), never both and never neither. -/
theorem C6_exactly_one_payload (env : Env) (accounts : List AccountRecord)
    (act : Action) :
    ((add_data env accounts act).countP isDataField = 1 ∧
     (add_data env accounts act).countP (fun f => !isDataField f) = 0) ∨
    ((add_data env accounts act).countP isDataField = 0 ∧
     (add_data env accounts act).countP (fun f => !isDataField f) = 1) := by
  rcases lem_add_data_shape env accounts act with ⟨v, h⟩ | h <;>
    rw [h] <;> simp [isDataField]

/-- C7 counterexample: a system setabi action whose embedded schema bytes
fail to unpack does not get a tier-1 structured document with the
decoded-schema sub-field omitted; the decoder falls through and, with no
usable schema for the system account, ends at the raw-hex fallback with no
structured field at all. -/
theorem C7_counterexample :
    add_data testEnv [sysRec] actSetabiBob = [PayloadField.hexData [2]] ∧
    (add_data testEnv [sysRec] actSetabiBob).countP isDataField = 0 := by
  decide

/-- C7 amended: for every system setabi action whose embedded raw schema
bytes fail to unpack, tier-1 decoding is abandoned and the action falls
through to the schema-driven generic tier (and, inside it, to the hex
fallback); the whole action still produces a document, but no tier-1
structured payload is emitted. -/
theorem C7_amended (env : Env) (accounts : List AccountRecord)
    (d : List Nat) (auth : List PermissionLevel) (sa : SetAbi)
    (hsa : env.unpackSetabi d = some sa)
    (hab : env.unpackAbiDef sa.abi = none) :
    add_data env accounts
        { account := systemAccountName, name := setabiName, data := d,
          authorization := auth } =
      genericTier env accounts
        { account := systemAccountName, name := setabiName, data := d,
          authorization := auth } := by
  simp [add_data, hsa, hab, systemAccountName, newaccountName, setabiName]

/-- C7 amended witness at a concrete input. -/
theorem C7_amended_witness :
    add_data testEnv [sysRec] actSetabiBob =
      genericTier testEnv [sysRec] actSetabiBob :=
  C7_amended testEnv [sysRec] [2] [] { account := "bob", abi := [9] }
    (by decide) rfl

/-- C2 counterexample: a setabi action for the absent account "bob" whose raw
schema bytes fail to unpack still creates the "bob" account record; the claim
that no account-record mutation at all occurs is false. -/
theorem C2_counterexample :
    (update_account testEnv [sysRec] 1 5 actSetabiBob).1 =
      [sysRec, { oid := 1, name := "bob", createdAt := 5 }] ∧
    (update_account testEnv [sysRec] 1 5 actSetabiBob).1.length = 2 := by
  decide

/-- C2 amended: for every setabi action whose raw schema bytes fail to
unpack, the account record is still created (name and creation timestamp
only) when it was absent, while an already-present record is left completely
unmodified; in neither case is a schema field or update timestamp set. -/
theorem C2_amended (env : Env) (accounts : List AccountRecord) (oid now : Nat)
    (d : List Nat) (auth : List PermissionLevel) (sa : SetAbi)
    (hsa : env.unpackSetabi d = some sa)
    (hab : env.unpackAbiDef sa.abi = none) :
    (update_account env accounts oid now
        { account := systemAccountName, name := setabiName, data := d,
          authorization := auth }).1 =
      if (find_account accounts sa.account).isSome then accounts
      else accounts ++ [{ oid := oid, name := sa.account, createdAt := now }] := by
  cases h : find_account accounts sa.account with
  | some r =>
    simp [update_account, hsa, hab, h, systemAccountName, newaccountName, setabiName]
  | none =>
    simp [update_account, hsa, hab, h, systemAccountName, newaccountName,
      setabiName]
    split <;> rfl

/-- C2 amended witness at a concrete input. -/
theorem C2_amended_witness :
    (update_account testEnv [sysRec] 1 5 actSetabiBob).1 =
      (if (find_account [sysRec] "bob").isSome then [sysRec]
       else [sysRec] ++ [{ oid := 1, name := "bob", createdAt := 5 }]) :=
  C2_amended testEnv [sysRec] 1 5 [2] [] { account := "bob", abi := [9] }
    (by decide) rfl

/-- C4 counterexample: processing the system newaccount action for "alice"
twice leaves two account records named "alice": the account-creation path
inserts unconditionally, with no uniqueness check. -/
theorem C4_counterexample :
    ((update_account testEnv
        (update_account testEnv [sysRec] 1 10 actNewAlice).1
        (update_account testEnv [sysRec] 1 10 actNewAlice).2.1 11 actNewAlice).1.countP
      (fun r => r.name == "alice")) = 2 := by
  decide

/-- C4 amended: processing the account-creation (newaccount) path twice for
the same name adds exactly two records with that name: each processing
performs an unconditional insert, so the record count for the name grows by
two, not to one. -/
theorem C4_amended (env : Env) (accounts : List AccountRecord)
    (oid t1 t2 : Nat) (d : List Nat) (auth : List PermissionLevel)
    (na : NewAccount) (hna : env.unpackNewaccount d = some na) :
    (update_account env
        (update_account env accounts oid t1
          { account := systemAccountName, name := newaccountName, data := d,
            authorization := auth }).1
        (update_account env accounts oid t1
          { account := systemAccountName, name := newaccountName, data := d,
            authorization := auth }).2.1 t2
        { account := systemAccountName, name := newaccountName, data := d,
          authorization := auth }).1.countP (fun r => r.name == na.name) =
      accounts.countP (fun r => r.name == na.name) + 2 := by
  simp [update_account, hna, List.countP_append, systemAccountName,
    newaccountName, List.countP_cons]

/-- C4 amended witness at a concrete input. -/
theorem C4_amended_witness :
    (update_account testEnv
        (update_account testEnv [sysRec] 1 10 actNewAlice).1
        (update_account testEnv [sysRec] 1 10 actNewAlice).2.1 11 actNewAlice).1.countP
      (fun r => r.name == "alice") =
      List.countP (fun r => r.name == "alice") [sysRec] + 2 :=
  C4_amended testEnv [sysRec] 1 10 11 [1] [] { name := "alice" } (by decide)

/-- C3: the adaptive-backpressure claim evaluated at a failing input.  Two
successive blocked enqueues whose queue strictly grows (length 1, then 2,
with target 0) both sleep exactly 200 ms: sleep_time and last_queue_size are
re-initialised on every call, so the delay never increases across blocked
enqueues (nor decreases otherwise); the element is still appended after the
wait in both calls. -/
theorem C3_blocked_enqueue_delay_constant_eval :
    (queueCall [0] 1 0 1).slept = some 200 ∧
    (queueCall [0, 1] 2 0 2).slept = some 200 ∧
    (queueCall [0] 1 0 1).queueAfter = [0, 1] ∧
    (queueCall [0, 1] 2 0 2).queueAfter = [0, 1, 2] := by
  decide

/-- C5: every reachable queue state satisfies processed ++ batch ++ pending =
the events produced so far, in production order.  The processed list is thus
always a prefix of the enqueue order (strict FIFO), no event occurs twice, and
none is lost: once both queues are drained, processed equals the submitted
sequence. -/
theorem C5_fifo {α : Type} (s : QState α) (es : List α) (h : Reach s es) :
    s.processed ++ s.batch ++ s.pending = es := by
  induction h with
  | init => rfl
  | produce e _ ih =>
    simp only [List.append_assoc] at ih ⊢
    rw [← ih]
    simp [List.append_assoc]
  | swap _ hne ih =>
    simp only [List.append_nil, List.nil_append, List.append_assoc] at ih ⊢
    exact ih
  | process e _ ih =>
    simp only [List.append_assoc, List.cons_append, List.singleton_append] at ih ⊢
    exact ih

/-- C5 witness: a concrete interleaved run (three enqueues, a swap, a full
drain) applied to the FIFO theorem. -/
theorem C5_fifo_witness :
    (⟨[], [], [1, 2, 3]⟩ : QState Nat).processed ++
      (⟨[], [], [1, 2, 3]⟩ : QState Nat).batch ++
      (⟨[], [], [1, 2, 3]⟩ : QState Nat).pending = [1, 2, 3] := by
  apply C5_fifo
  have h0 : Reach (⟨[], [], []⟩ : QState Nat) [] := Reach.init
  have h1 := Reach.produce 1 h0
  have h2 := Reach.produce 2 h1
  have h3 := Reach.produce 3 h2
  have h4 := Reach.swap h3 (by simp)
  have h5 := Reach.process 1 h4
  have h6 := Reach.process 2 h5
  have h7 := Reach.process 3 h6
  exact h7

/-- The consume loop after shutdown, in closed form: the log sequence is
decided by the captured batch size against the 75% threshold, and the whole
batch is processed. -/
theorem lem_consumeShutdown_eq {α : Type} (target : Nat) (q : List α) :
    consumeShutdown target q =
      (if q.length = 0 then [LogMsg.draining 0, LogMsg.gracefulShutdown]
       else if 3 * target < 4 * q.length then
         [LogMsg.queueSizeWarn q.length, LogMsg.draining 0,
          LogMsg.gracefulShutdown]
       else
         [LogMsg.draining q.length, LogMsg.draining 0,
          LogMsg.gracefulShutdown],
       q) := by
  unfold consumeShutdown consumeIter
  by_cases hz : q.length = 0
  · have hq : q = [] := List.length_eq_zero.mp hz
    subst hq
    simp
  · by_cases ht : 3 * target < 4 * q.length <;> simp [hz, ht]

/-- C9 counterexample: shutdown with target queue size 4 and a pending queue
of 4 events (past the 75% threshold): the batch is fully drained, but the log
emitted for the drained batch is the queue-size warning; no "draining queue"
line for the batch (size 4) appears. -/
theorem C9_counterexample :
    consumeShutdown 4 [0, 1, 2, 3] =
      ([LogMsg.queueSizeWarn 4, LogMsg.draining 0, LogMsg.gracefulShutdown],
       [0, 1, 2, 3]) ∧
    (consumeShutdown 4 [0, 1, 2, 3]).1.contains (LogMsg.draining 4) = false := by
  decide

/-- C9 amended: on shutdown the worker with an empty queue terminates with
the graceful-shutdown line as its final log; a worker with a non-empty queue
fully drains every already-enqueued event before terminating, and logs the
drained batch as "draining queue" when the batch size is at most 75% of the
target queue size, but as a queue-size warning when it exceeds 75%. -/
theorem C9_amended {α : Type} (target : Nat) (q : List α) :
    (consumeShutdown target q).2 = q ∧
    (consumeShutdown target q).1.getLast? = some LogMsg.gracefulShutdown ∧
    (¬3 * target < 4 * q.length →
      LogMsg.draining q.length ∈ (consumeShutdown target q).1) ∧
    (3 * target < 4 * q.length →
      LogMsg.queueSizeWarn q.length ∈ (consumeShutdown target q).1) := by
  rw [lem_consumeShutdown_eq]
  by_cases hz : q.length = 0
  · have hq : q = [] := List.length_eq_zero.mp hz
    subst hq
    simp
  · by_cases ht : 3 * target < 4 * q.length <;> simp [hz, ht]

/-- C9 amended witness: the draining log of a one-event batch with the
default target size 256, via the amended theorem. -/
theorem C9_amended_witness :
    LogMsg.draining 1 ∈ (consumeShutdown 256 [(5 : Nat)]).1 :=
  (C9_amended 256 [5]).2.2.1 (by decide)

/-- Every write update_account performs is an accounts-collection write. -/
theorem lem_update_account_writes (env : Env) (accounts : List AccountRecord)
    (oid now : Nat) (act : Action) :
    ((update_account env accounts oid now act).2.2).all isAccountWrite = true := by
  simp only [update_account]
  repeat' split
  all_goals simp [isAccountWrite, accountsCol]

/-- An accounts-collection write persists nothing into the filter
collection. -/
theorem lem_accountWrite_filterBulk (w : StoreWrite)
    (h : isAccountWrite w = true) : filterBulkDocs w = [] := by
  cases w with
  | insertOne c d => rfl
  | updateOne c oid abi ts => rfl
  | bulkWrite c ds => simp [isAccountWrite] at h

/-- An accounts-collection write is not a filter-collection bulk write. -/
theorem lem_accountWrite_not_bulk (w : StoreWrite)
    (h : isAccountWrite w = true) : isBulkFilterWrite w = false := by
  cases w with
  | insertOne c d => rfl
  | updateOne c oid abi ts => rfl
  | bulkWrite c ds => simp [isAccountWrite] at h

/-- An accounts-collection write carries no per-transaction document. -/
theorem lem_accountWrite_docs (w : StoreWrite) (h : isAccountWrite w = true) :
    (writeDocs w).all (fun d => !isTransDoc d) = true := by
  cases w with
  | insertOne c d =>
    cases d with
    | account r => rfl
    | action a => simp [isAccountWrite] at h
    | trans l => simp [isAccountWrite] at h
  | updateOne c oid abi ts => rfl
  | bulkWrite c ds => simp [isAccountWrite] at h

/-- A list of accounts-collection writes persists nothing into the filter
collection. -/
theorem lem_account_writes_no_filter (ws : List StoreWrite)
    (h : ws.all isAccountWrite = true) : persistedFilterDocs ws = [] := by
  induction ws with
  | nil => rfl
  | cons w ws ih =>
    simp only [List.all_cons, Bool.and_eq_true] at h
    simp only [persistedFilterDocs, List.flatMap_cons] at *
    rw [lem_accountWrite_filterBulk w h.1, ih h.2]
    rfl

/-- A list of accounts-collection writes contains no filter bulk write. -/
theorem lem_account_writes_no_bulk_count (ws : List StoreWrite)
    (h : ws.all isAccountWrite = true) : ws.countP isBulkFilterWrite = 0 := by
  induction ws with
  | nil => rfl
  | cons w ws ih =>
    simp only [List.all_cons, Bool.and_eq_true] at h
    rw [List.countP_cons, lem_accountWrite_not_bulk w h.1, ih h.2]
    simp

/-- A list of accounts-collection writes carries no per-transaction
document. -/
theorem lem_account_writes_docs (ws : List StoreWrite)
    (h : ws.all isAccountWrite = true) :
    (writtenDocs ws).all (fun d => !isTransDoc d) = true := by
  induction ws with
  | nil => rfl
  | cons w ws ih =>
    simp only [List.all_cons, Bool.and_eq_true] at h
    simp only [writtenDocs, List.flatMap_cons, List.all_append]
    rw [lem_accountWrite_docs w h.1]
    simpa [writtenDocs] using ih h.2

/-- Accounts-collection writes stay accounts-collection-only under a weaker
predicate. -/
theorem lem_all_weaken (ws : List StoreWrite)
    (h : ws.all isAccountWrite = true) :
    ws.all (fun w => isAccountWrite w || isBulkFilterWrite w) = true := by
  induction ws with
  | nil => rfl
  | cons w ws ih =>
    simp only [List.all_cons, Bool.and_eq_true] at h ⊢
    exact ⟨by rw [h.1]; rfl, ih h.2⟩

/-- persistedFilterDocs distributes over write-list concatenation. -/
theorem lem_persisted_append (a b : List StoreWrite) :
    persistedFilterDocs (a ++ b) =
      persistedFilterDocs a ++ persistedFilterDocs b := by
  simp [persistedFilterDocs]

/-- process_action with the start-block gate open, in record form. -/
theorem lem_pa_true (cfg : Config) (env : Env) (trxId : String) (now : Nat)
    (st : ActFold) (act : Action) :
    process_action cfg env true trxId now st act =
      { accounts := (update_account env st.accounts st.nextOid now act).1,
        nextOid := (update_account env st.accounts st.nextOid now act).2.1,
        actNum := st.actNum + 1,
        actArray := st.actArray ++
          [actionDocOf env trxId
            (update_account env st.accounts st.nextOid now act).1 st.actNum act],
        bulkDocs := st.bulkDocs ++
          (if cfg.filter_contract.contains act.account then
            [actionDocOf env trxId
              (update_account env st.accounts st.nextOid now act).1 st.actNum act]
          else []),
        actionsToWrite := true,
        filterToWrite := st.filterToWrite ||
          cfg.filter_contract.contains act.account,
        writes := st.writes ++
          (update_account env st.accounts st.nextOid now act).2.2 } := rfl

/-- process_action with the gate closed: only the registry effect and the
act_num increment happen. -/
theorem lem_pa_false (cfg : Config) (env : Env) (trxId : String) (now : Nat)
    (st : ActFold) (act : Action) :
    process_action cfg env false trxId now st act =
      { accounts := (update_account env st.accounts st.nextOid now act).1,
        nextOid := (update_account env st.accounts st.nextOid now act).2.1,
        actNum := st.actNum + 1,
        actArray := st.actArray, bulkDocs := st.bulkDocs,
        actionsToWrite := st.actionsToWrite,
        filterToWrite := st.filterToWrite,
        writes := st.writes ++
          (update_account env st.accounts st.nextOid now act).2.2 } := rfl

/-- Frame of the per-action loop when start_block_reached is false: the
document array, the bulk list and both flags are untouched. -/
theorem lem_fold_not_reached (cfg : Config) (env : Env) (trxId : String)
    (now : Nat) (acts : List Action) (st : ActFold) :
    (acts.foldl (process_action cfg env false trxId now) st).actArray =
        st.actArray ∧
    (acts.foldl (process_action cfg env false trxId now) st).bulkDocs =
        st.bulkDocs ∧
    (acts.foldl (process_action cfg env false trxId now) st).actionsToWrite =
        st.actionsToWrite ∧
    (acts.foldl (process_action cfg env false trxId now) st).filterToWrite =
        st.filterToWrite := by
  induction acts generalizing st with
  | nil => exact ⟨rfl, rfl, rfl, rfl⟩
  | cons a as ih =>
    simp only [List.foldl_cons]
    have h := ih (process_action cfg env false trxId now st a)
    simpa only [lem_pa_false] using h

/-- Loop invariant: the bulk list is exactly the filter-matching subset of
the document array. -/
theorem lem_fold_bulk (cfg : Config) (env : Env) (reached : Bool)
    (trxId : String) (now : Nat) (acts : List Action) (st : ActFold)
    (h : st.bulkDocs = st.actArray.filter (matchesFilter cfg)) :
    (acts.foldl (process_action cfg env reached trxId now) st).bulkDocs =
      (acts.foldl (process_action cfg env reached trxId now) st).actArray.filter
        (matchesFilter cfg) := by
  induction acts generalizing st with
  | nil => exact h
  | cons a as ih =>
    simp only [List.foldl_cons]
    apply ih
    cases reached with
    | false => simpa only [lem_pa_false] using h
    | true =>
      simp only [lem_pa_true]
      simp [h, List.filter_append, matchesFilter, List.filter_cons,
        actionDocOf]

/-- Loop invariant: while filter_to_write is false, the bulk list is
empty. -/
theorem lem_fold_ftw (cfg : Config) (env : Env) (reached : Bool)
    (trxId : String) (now : Nat) (acts : List Action) (st : ActFold)
    (h : st.filterToWrite = false → st.bulkDocs = []) :
    (acts.foldl (process_action cfg env reached trxId now) st).filterToWrite =
        false →
      (acts.foldl (process_action cfg env reached trxId now) st).bulkDocs =
        [] := by
  induction acts generalizing st with
  | nil => exact h
  | cons a as ih =>
    simp only [List.foldl_cons]
    apply ih
    cases reached with
    | false => simpa only [lem_pa_false] using h
    | true =>
      intro hf
      simp only [lem_pa_true] at hf ⊢
      simp only [Bool.or_eq_false_iff] at hf
      rw [hf.2, h hf.1]
      rfl

/-- Loop invariant: while actions_to_write is false, the document array is
empty. -/
theorem lem_fold_atw (cfg : Config) (env : Env) (reached : Bool)
    (trxId : String) (now : Nat) (acts : List Action) (st : ActFold)
    (h : st.actionsToWrite = false → st.actArray = []) :
    (acts.foldl (process_action cfg env reached trxId now) st).actionsToWrite =
        false →
      (acts.foldl (process_action cfg env reached trxId now) st).actArray =
        [] := by
  induction acts generalizing st with
  | nil => exact h
  | cons a as ih =>
    simp only [List.foldl_cons]
    apply ih
    cases reached with
    | false => simpa only [lem_pa_false] using h
    | true =>
      intro hf
      rw [lem_pa_true] at hf
      simp at hf

/-- Loop invariant: all writes of the per-action loop are accounts-collection
writes. -/
theorem lem_fold_writes (cfg : Config) (env : Env) (reached : Bool)
    (trxId : String) (now : Nat) (acts : List Action) (st : ActFold)
    (h : st.writes.all isAccountWrite = true) :
    (acts.foldl (process_action cfg env reached trxId now) st).writes.all
      isAccountWrite = true := by
  induction acts generalizing st with
  | nil => exact h
  | cons a as ih =>
    simp only [List.foldl_cons]
    apply ih
    cases reached with
    | false =>
      simp only [lem_pa_false]
      simp [List.all_append, h, lem_update_account_writes]
    | true =>
      simp only [lem_pa_true]
      simp [List.all_append, h, lem_update_account_writes]

/-- When start_block_reached is true, the document array records the
transaction's actions in order (by account name). -/
theorem lem_fold_map_account (cfg : Config) (env : Env) (trxId : String)
    (now : Nat) (acts : List Action) (st : ActFold) :
    ((acts.foldl (process_action cfg env true trxId now) st).actArray).map
        ActionDoc.account =
      st.actArray.map ActionDoc.account ++ acts.map Action.account := by
  induction acts generalizing st with
  | nil => simp
  | cons a as ih =>
    simp only [List.foldl_cons]
    rw [ih]
    simp [lem_pa_true, actionDocOf]

/-- The filter-collection content written by one transaction is exactly the
filter-matching subset of the decoded documents, in order (and empty whenever
the bulk write is not due). -/
theorem lem_process_trx_persisted (cfg : Config) (env : Env) (st : PState)
    (now : Nat) (t : TrxMeta) :
    persistedFilterDocs (process_trx cfg env st now t).writes =
      ((process_trx cfg env st now t).actArray.filter (matchesFilter cfg)).map
        BDoc.action := by
  have hbulk : (trxFold cfg env st now t).bulkDocs =
      (trxFold cfg env st now t).actArray.filter (matchesFilter cfg) :=
    lem_fold_bulk cfg env st.start_block_reached t.id now
      t.actions (initFold st) rfl
  have hwrites : (trxFold cfg env st now t).writes.all isAccountWrite = true :=
    lem_fold_writes cfg env st.start_block_reached t.id now
      t.actions (initFold st) rfl
  show persistedFilterDocs
      ((trxFold cfg env st now t).writes ++ trxBulkWrites cfg env st now t) =
    ((trxFold cfg env st now t).actArray.filter (matchesFilter cfg)).map
      BDoc.action
  rw [lem_persisted_append, lem_account_writes_no_filter _ hwrites,
    List.nil_append]
  unfold trxBulkWrites
  split
  case isTrue hc =>
    show filterBulkDocs _ ++ persistedFilterDocs [] = _
    simp only [filterBulkDocs, if_pos rfl]
    simpa [persistedFilterDocs] using congrArg (List.map BDoc.action) hbulk
  case isFalse hc =>
    show ([] : List BDoc) = _
    simp only [Bool.and_eq_true, not_and] at hc
    by_cases hr : st.start_block_reached = true
    · by_cases ha : (trxFold cfg env st now t).actionsToWrite = true
      · have hf : (trxFold cfg env st now t).filterToWrite = false := by
          cases hx : (trxFold cfg env st now t).filterToWrite
          · rfl
          · exact absurd hx (hc ⟨hr, ha⟩)
        have hempty : (trxFold cfg env st now t).bulkDocs = [] :=
          lem_fold_ftw cfg env st.start_block_reached t.id now
            t.actions (initFold st) (fun _ => rfl) hf
        rw [← hbulk, hempty]
        rfl
      · have ha' : (trxFold cfg env st now t).actionsToWrite = false := by
          cases hx : (trxFold cfg env st now t).actionsToWrite
          · rfl
          · exact absurd hx ha
        have harr : (trxFold cfg env st now t).actArray = [] :=
          lem_fold_atw cfg env st.start_block_reached t.id now
            t.actions (initFold st) (fun _ => rfl) ha'
        rw [harr]
        rfl
    · have hr' : st.start_block_reached = false := by
        cases hx : st.start_block_reached
        · rfl
        · exact absurd hx hr
      have harr : (trxFold cfg env st now t).actArray = [] := by
        have heq : trxFold cfg env st now t =
            t.actions.foldl (process_action cfg env false t.id now)
              (initFold st) := by
          unfold trxFold
          rw [hr']
        rw [heq]
        exact (lem_fold_not_reached cfg env t.id now t.actions (initFold st)).1
      rw [harr]
      rfl

/-- C8: with output enabled, exactly the actions whose account is in the
configured filter set are persisted: the filter-collection content equals the
filter-matching subset of the decoded documents (empty when nothing matches,
and always empty under an empty filter set), and the decoded documents mirror
the transaction's actions account-by-account in order. -/
theorem C8_filter_correct (cfg : Config) (env : Env) (st : PState) (now : Nat)
    (t : TrxMeta) (h : st.start_block_reached = true) :
    persistedFilterDocs (process_trx cfg env st now t).writes =
      ((process_trx cfg env st now t).actArray.filter (matchesFilter cfg)).map
        BDoc.action ∧
    ((process_trx cfg env st now t).actArray).map ActionDoc.account =
      t.actions.map Action.account := by
  refine ⟨lem_process_trx_persisted cfg env st now t, ?_⟩
  show ((trxFold cfg env st now t).actArray).map ActionDoc.account = _
  have heq : trxFold cfg env st now t =
      t.actions.foldl (process_action cfg env true t.id now) (initFold st) := by
    unfold trxFold
    rw [h]
  rw [heq, lem_fold_map_account]
  rfl

/-- C8 witness: filter set {"alice"} on a transaction with an "alice" action
and a "bob" action, output enabled. -/
theorem C8_filter_correct_witness :
    persistedFilterDocs
        (process_trx cfgAlice testEnv (initState 0 [sysRec] 1) 0 trxAB).writes =
      ((process_trx cfgAlice testEnv (initState 0 [sysRec] 1) 0
          trxAB).actArray.filter (matchesFilter cfgAlice)).map BDoc.action ∧
    ((process_trx cfgAlice testEnv (initState 0 [sysRec] 1) 0
        trxAB).actArray).map ActionDoc.account =
      trxAB.actions.map Action.account :=
  C8_filter_correct cfgAlice testEnv (initState 0 [sysRec] 1) 0 trxAB rfl

/-- C10 counterexample: a transaction whose single action is the system
newaccount action performs a store write (the registry insert into the
accounts collection) that is not the bulk filter insert — so the bulk insert
is not the only store write transaction processing performs. -/
theorem C10_counterexample :
    (process_trx cfgAlice testEnv (initState 0 [sysRec] 1) 0 trxNA).writes =
      [StoreWrite.insertOne accountsCol
        (BDoc.account { oid := 1, name := "alice", createdAt := 0 })] ∧
    (process_trx cfgAlice testEnv (initState 0 [sysRec] 1) 0
        trxNA).writes.countP isBulkFilterWrite = 0 := by
  decide

/-- C10 amended: the assembled per-transaction document is never written to
the store; every store write of transaction processing is either an
account-registry write to the accounts collection (decode side effect) or the
single unordered bulk insert into the filter collection (at most one per
transaction), whose content is exactly the filter-matching action
documents. -/
theorem C10_frame (cfg : Config) (env : Env) (st : PState) (now : Nat)
    (t : TrxMeta) :
    (writtenDocs (process_trx cfg env st now t).writes).all
      (fun d => !isTransDoc d) = true ∧
    (process_trx cfg env st now t).writes.all
      (fun w => isAccountWrite w || isBulkFilterWrite w) = true ∧
    (process_trx cfg env st now t).writes.countP isBulkFilterWrite ≤ 1 ∧
    persistedFilterDocs (process_trx cfg env st now t).writes =
      ((process_trx cfg env st now t).actArray.filter (matchesFilter cfg)).map
        BDoc.action := by
  have hwrites : (trxFold cfg env st now t).writes.all isAccountWrite = true :=
    lem_fold_writes cfg env st.start_block_reached t.id now
      t.actions (initFold st) rfl
  refine ⟨?_, ?_, ?_, lem_process_trx_persisted cfg env st now t⟩
  · show (writtenDocs
        ((trxFold cfg env st now t).writes ++ trxBulkWrites cfg env st now t)).all
      (fun d => !isTransDoc d) = true
    rw [writtenDocs, List.flatMap_append, List.all_append]
    rw [show ((trxFold cfg env st now t).writes.flatMap writeDocs) =
        writtenDocs (trxFold cfg env st now t).writes from rfl]
    rw [lem_account_writes_docs _ hwrites]
    unfold trxBulkWrites
    split
    · simp [writeDocs, isTransDoc, List.all_map, Function.comp]
    · rfl
  · show ((trxFold cfg env st now t).writes ++
        trxBulkWrites cfg env st now t).all
      (fun w => isAccountWrite w || isBulkFilterWrite w) = true
    rw [List.all_append, lem_all_weaken _ hwrites]
    unfold trxBulkWrites
    split
    · simp [isBulkFilterWrite, filterCol]
    · rfl
  · show ((trxFold cfg env st now t).writes ++
        trxBulkWrites cfg env st now t).countP isBulkFilterWrite ≤ 1
    rw [List.countP_append, lem_account_writes_no_bulk_count _ hwrites]
    unfold trxBulkWrites
    split
    · simp [isBulkFilterWrite, filterCol, List.countP_cons]
    · simp

/-- C1: the start-height gate never opens, evaluated at the failing input.
With configured start height 1, initState leaves start_block_reached false
and no statement of the source ever sets it afterwards; processing one event
below the height and one past it (each carrying a filter-matching "alice"
action and a registry-mutating system newaccount action) persists nothing
into the filter collection, while the account-registry mutation does occur
both times and the gate is still closed at the end. -/
theorem C1_start_height_never_resumes :
    persistedFilterDocs
        (process_events cfgStart1 testEnv
          (initState cfgStart1.start_block_num [sysRec] 1) 0
          [trxLow, trxHigh]).2 = [] ∧
    ((process_events cfgStart1 testEnv
        (initState cfgStart1.start_block_num [sysRec] 1) 0
        [trxLow, trxHigh]).1.accounts.map AccountRecord.name) =
      [systemAccountName, "alice", "alice"] ∧
    (process_events cfgStart1 testEnv
        (initState cfgStart1.start_block_num [sysRec] 1) 0
        [trxLow, trxHigh]).1.start_block_reached = false := by
  decide

end FilterMongoDB
